import Mathlib

/-!
# Verification of `timeInterval` (src/arduino/timeUtil.cpp)

The repository contains a single pure function on unsigned 32-bit integers:

```c
unsigned long timeInterval(unsigned long from, unsigned long to) {
  if (from <= to) {
    return to - from;
  }
  else {
    return (4294967295 - from) + to;
  }
}
```

On the Arduino target `unsigned long` is a 32-bit unsigned integer, so every
arithmetic operation is performed modulo 2^32 = 4294967296.  We embed the
function as a `Nat → Nat → Nat` function that applies the reduction modulo
2^32 exactly where the C abstract machine does: after each subtraction and
after the final addition.  For in-range inputs (below 2^32) this reproduces
the C semantics exactly; the theorems carry the range hypotheses of the
original `uint32` domain where the claims mention them.
-/

/-- 2^32, the modulus of 32-bit unsigned arithmetic (written as a literal so
that the definition mirrors the machine arithmetic directly). -/
def U32_MOD : Nat := 4294967296

/-- Shallow embedding of `timeInterval` from `src/arduino/timeUtil.cpp`.
Each C subtraction `a - b` on `unsigned long` is `(a - b) mod 2^32` when
`b ≤ a` and wraps otherwise; since both subtractions in the source occur
under the guard that makes them non-wrapping (`from ≤ to` in the first
branch, and `from ≤ 4294967295` for in-range inputs in the second), natural
truncated subtraction reduced mod 2^32 is the faithful translation.  The
final addition is likewise reduced mod 2^32. -/
def timeInterval («from» «to» : Nat) : Nat :=
  if «from» ≤ «to» then
    («to» - «from») % U32_MOD
  else
    ((4294967295 - «from») % U32_MOD + «to») % U32_MOD

/-- Modelled from the spec: the "equivalent, often preferred" single-expression
implementation `(to - from) mod 2^32` using wrapping/modular subtraction
semantics, i.e. subtraction over the integers followed by the Euclidean
remainder modulo 2^32 (the result of which is non-negative, so `toNat` is
lossless). -/
def timeIntervalMod («from» «to» : Nat) : Nat :=
  (((«to» : Int) - («from» : Int)) % (U32_MOD : Int)).toNat

/-! ## Shared helper lemmas -/

/-- On the non-wrapping branch (`from ≤ to` with `to` in range) the result is
plain truncated subtraction: the reduction modulo 2^32 is a no-op. -/
theorem timeInterval_eq_sub_of_le («from» «to» : Nat)
    (ht : «to» < U32_MOD) (hle : «from» ≤ «to») :
    timeInterval «from» «to» = «to» - «from» := by
  simp only [timeInterval, U32_MOD] at *
  rw [if_pos hle]
  omega

/-- The result of `timeInterval` is always strictly below the modulus 2^32
(both branches end in a reduction modulo `U32_MOD`). -/
theorem timeInterval_lt_mod («from» «to» : Nat) :
    timeInterval «from» «to» < U32_MOD := by
  simp only [timeInterval]
  by_cases hle : «from» ≤ «to»
  · rw [if_pos hle]
    exact Nat.mod_lt _ (by norm_num [U32_MOD])
  · rw [if_neg hle]
    exact Nat.mod_lt _ (by norm_num [U32_MOD])

/-! ## Claims -/

/-- C1: For every pair of unsigned 32-bit inputs with `from ≤ to`,
`timeInterval from to` returns exactly `to - from`. -/
theorem timeInterval_no_wrap («from» «to» : Nat)
    (hf : «from» < 2 ^ 32) (ht : «to» < 2 ^ 32) (hle : «from» ≤ «to») :
    timeInterval «from» «to» = «to» - «from» :=
  timeInterval_eq_sub_of_le «from» «to» (by simp only [U32_MOD]; omega) hle

/-- Witness for C1 at `from = 3`, `to = 10`. -/
theorem timeInterval_no_wrap_witness :
    timeInterval 3 10 = 7 :=
  timeInterval_no_wrap 3 10 (by norm_num) (by norm_num) (by norm_num)

/-- C2: For every pair of unsigned 32-bit inputs with `from > to`,
`timeInterval from to` returns exactly `(2^32 - 1 - from) + to`. -/
theorem timeInterval_wrap («from» «to» : Nat)
    (hf : «from» < 2 ^ 32) (ht : «to» < 2 ^ 32) (hgt : «to» < «from») :
    timeInterval «from» «to» = (2 ^ 32 - 1 - «from») + «to» := by
  have h32 : (2 : Nat) ^ 32 = U32_MOD := by norm_num [U32_MOD]
  rw [h32] at hf ht ⊢
  simp only [timeInterval, U32_MOD] at *
  rw [if_neg (by omega)]
  omega

/-- Witness for C2 at `from = 4294967290`, `to = 4` (the spec's concrete
scenario, result `5 + 4 = 9`). -/
theorem timeInterval_wrap_witness :
    timeInterval 4294967290 4 = 9 := by
  have h := timeInterval_wrap 4294967290 4 (by norm_num) (by norm_num) (by norm_num)
  rw [h]; norm_num

/-- C3 counterexample: at `from = 1`, `to = 0` the branching implementation
returns `4294967294` while the modular expression `(to - from) mod 2^32`
returns `4294967295`; the two are not equal. -/
theorem timeInterval_ne_mod_at_one_zero :
    timeInterval 1 0 ≠ timeIntervalMod 1 0 ∧
    timeInterval 1 0 = 4294967294 ∧ timeIntervalMod 1 0 = 4294967295 := by
  refine ⟨?_, ?_, ?_⟩ <;> decide

/-- C3 (amended): the branching implementation agrees with the modular
expression `(to - from) mod 2^32` exactly when `from ≤ to`; when `from > to`
the branching implementation returns one less than the modular expression:
the two branches do not collapse into the single modular expression. -/
theorem timeInterval_vs_mod («from» «to» : Nat)
    (hf : «from» < 2 ^ 32) (ht : «to» < 2 ^ 32) :
    timeInterval «from» «to» =
      if «from» ≤ «to» then timeIntervalMod «from» «to»
      else timeIntervalMod «from» «to» - 1 := by
  have h32 : (2 : Nat) ^ 32 = U32_MOD := by norm_num [U32_MOD]
  rw [h32] at hf ht
  simp only [timeInterval, timeIntervalMod, U32_MOD] at *
  by_cases hle : «from» ≤ «to»
  · rw [if_pos hle, if_pos hle]
    omega
  · rw [if_neg hle, if_neg hle]
    omega

/-- Witness for C3 (amended) at `from = 1`, `to = 0` (wrap case) showing the
off-by-one relation concretely. -/
theorem timeInterval_vs_mod_witness :
    timeInterval 1 0 = timeIntervalMod 1 0 - 1 := by
  have h := timeInterval_vs_mod 1 0 (by norm_num) (by norm_num)
  simpa using h

/-- C4: For every pair of unsigned 32-bit inputs, the value returned by
`timeInterval` is a tick count in the range `[0, 2^32 - 1]` (being a `Nat`
it is non-negative by construction). -/
theorem timeInterval_range («from» «to» : Nat)
    (hf : «from» < 2 ^ 32) (ht : «to» < 2 ^ 32) :
    timeInterval «from» «to» ≤ 2 ^ 32 - 1 := by
  have h := timeInterval_lt_mod «from» «to»
  simp only [U32_MOD] at h
  omega

/-- Witness for C4 at `from = 0`, `to = 4294967295`. -/
theorem timeInterval_range_witness :
    timeInterval 0 4294967295 ≤ 2 ^ 32 - 1 :=
  timeInterval_range 0 4294967295 (by norm_num) (by norm_num)

/-- C5: For every value `v`, `timeInterval v v = 0` (proved for all naturals,
hence in particular for every unsigned 32-bit value, and in particular
`timeInterval 0 0 = 0`). -/
theorem timeInterval_self (v : Nat) : timeInterval v v = 0 := by
  simp [timeInterval]

/-- C6: For the specific inputs `from = 2^32 - 1` and `to = 0`,
`timeInterval` returns 0. -/
theorem timeInterval_max_zero : timeInterval 4294967295 0 = 0 := by
  decide

/-- C7: For every fixed `from`, `timeInterval from to` is strictly increasing
in `to` on the non-wrapping range `from ≤ to ≤ 2^32 - 1`, increasing by
exactly `to2 - to1` between any two such points (hence by exactly 1 per unit
increment of `to`), matching `to - from` throughout. -/
theorem timeInterval_strictMono («from» to1 to2 : Nat)
    (h1 : «from» ≤ to1) (h2 : to1 < to2) (h3 : to2 ≤ 2 ^ 32 - 1) :
    timeInterval «from» to1 < timeInterval «from» to2 ∧
    timeInterval «from» to2 = timeInterval «from» to1 + (to2 - to1) ∧
    timeInterval «from» to1 = to1 - «from» := by
  have hf : «from» < 2 ^ 32 := by omega
  have ht1 : to1 < 2 ^ 32 := by omega
  have ht2 : to2 < 2 ^ 32 := by omega
  have e1 := timeInterval_eq_sub_of_le «from» to1 (by simp only [U32_MOD]; omega) h1
  have e2 := timeInterval_eq_sub_of_le «from» to2 (by simp only [U32_MOD]; omega) (by omega)
  refine ⟨?_, ?_, e1⟩ <;> omega

/-- Witness for C7 at `from = 5`, `to1 = 7`, `to2 = 8`: one unit increment of
`to` increases the result by exactly 1. -/
theorem timeInterval_strictMono_witness :
    timeInterval 5 7 < timeInterval 5 8 ∧
    timeInterval 5 8 = timeInterval 5 7 + (8 - 7) ∧
    timeInterval 5 7 = 7 - 5 :=
  timeInterval_strictMono 5 7 8 (by norm_num) (by norm_num) (by norm_num)

/-- C8: `timeInterval` is total over the entire 32-bit input domain: every
pair of unsigned 32-bit inputs produces a defined result which is itself a
valid unsigned 32-bit value; there is no failure branch (the embedding is a
plain total function into `Nat`, with no `Option`/`Except` error channel,
mirroring the source which returns on both branches of its single `if`). -/
theorem timeInterval_total («from» «to» : Nat)
    (hf : «from» < 2 ^ 32) (ht : «to» < 2 ^ 32) :
    ∃ r : Nat, timeInterval «from» «to» = r ∧ r < 2 ^ 32 := by
  refine ⟨timeInterval «from» «to», rfl, ?_⟩
  have h := timeInterval_lt_mod «from» «to»
  simp only [U32_MOD] at h
  omega

/-- Witness for C8 at `from = 123`, `to = 45`. -/
theorem timeInterval_total_witness :
    ∃ r : Nat, timeInterval 123 45 = r ∧ r < 2 ^ 32 :=
  timeInterval_total 123 45 (by norm_num) (by norm_num)

/-- C9: In the wraparound branch (`from > to`), the expression
`(4294967295 - from) + to` computed over the exact natural numbers equals the
`uint32` result of `timeInterval` (the reductions mod 2^32 are no-ops) and is
at most `2^32 - 2`, so no intermediate or final overflow occurs. -/
theorem timeInterval_wrap_no_overflow («from» «to» : Nat)
    (hf : «from» < 2 ^ 32) (ht : «to» < 2 ^ 32) (hgt : «to» < «from») :
    timeInterval «from» «to» = (4294967295 - «from») + «to» ∧
    (4294967295 - «from») + «to» ≤ 2 ^ 32 - 2 := by
  have h32 : (2 : Nat) ^ 32 = U32_MOD := by norm_num [U32_MOD]
  rw [h32] at hf ht ⊢
  simp only [timeInterval, U32_MOD] at *
  rw [if_neg (by omega)]
  constructor
  · omega
  · omega

/-- Witness for C9 at `from = 4294967295`, `to = 4294967293`. -/
theorem timeInterval_wrap_no_overflow_witness :
    timeInterval 4294967295 4294967293 = (4294967295 - 4294967295) + 4294967293 ∧
    (4294967295 - 4294967295) + 4294967293 ≤ 2 ^ 32 - 2 :=
  timeInterval_wrap_no_overflow 4294967295 4294967293
    (by norm_num) (by norm_num) (by norm_num)

/-- C10: For every pair of distinct unsigned 32-bit inputs, the two travel
directions around the counter circle sum to the counter maximum:
`timeInterval from to + timeInterval to from = 2^32 - 1` in exact integer
arithmetic (not `2^32`). -/
theorem timeInterval_antisym_sum («from» «to» : Nat)
    (hf : «from» < 2 ^ 32) (ht : «to» < 2 ^ 32) (hne : «from» ≠ «to») :
    timeInterval «from» «to» + timeInterval «to» «from» = 2 ^ 32 - 1 := by
  have h32 : (2 : Nat) ^ 32 = U32_MOD := by norm_num [U32_MOD]
  rw [h32] at hf ht ⊢
  simp only [timeInterval, U32_MOD] at *
  rcases Nat.lt_or_ge «from» «to» with hlt | hge
  · rw [if_pos (Nat.le_of_lt hlt), if_neg (by omega)]
    omega
  · have hgt : «to» < «from» := by omega
    rw [if_neg (by omega), if_pos (Nat.le_of_lt hgt)]
    omega

/-- Witness for C10 at `from = 10`, `to = 3`. -/
theorem timeInterval_antisym_sum_witness :
    timeInterval 10 3 + timeInterval 3 10 = 2 ^ 32 - 1 :=
  timeInterval_antisym_sum 10 3 (by norm_num) (by norm_num) (by norm_num)
